import Mathlib

/-!
Verification of the FBX 6100 → OBJ converter (`src/backend/fbx_converter.py`).

The development is a shallow embedding of the converter:
  * bytes are `Nat`s in a `List`, a file object is a `ByteStream`
    (contents plus cursor); `bread` models Python's `f.read(n)` (returns at
    most `n` bytes and advances the cursor by what it returned);
  * Python `float` values are represented exactly: an IEEE-754 bit pattern
    decodes to a rational (`PyFloat.fin`), `inf`/`nan` are their own
    constructors, so no floating-point arithmetic is approximated (the
    converter never computes with the coordinates, it only moves them);
  * `zlib.decompress` is an external collaborator and is passed in as a
    function `inflate : List Nat → Option (List Nat)` (`none` models
    `zlib.error`);
  * a Python exception is `Except Unit`; a list comprehension that can raise
    is `mapME`, one over `Option` is `mapMo`;
  * the recursive binary node parser is fuelled: the fuel only bounds the
    recursion depth that Python's call stack (or its `while` loops on
    adversarial cursors) would bound, all theorems use enough fuel.
-/

/-! ## Byte-level primitives -/

/-- Little-endian value of a byte list (first byte least significant),
as `struct.unpack` with `<` sees the raw bytes. -/
def leNat (bs : List Nat) : Nat :=
  bs.foldr (fun b acc => b + 256 * acc) 0

/-- The `k` little-endian bytes of `n` (used only to build concrete test
streams; `n` is taken modulo `2^(8*k)`). -/
def leBytes (k : Nat) (n : Nat) : List Nat :=
  match k with
  | 0 => []
  | k + 1 => (n % 256) :: leBytes k (n / 256)

/-- Two's-complement reading of a `w`-bit unsigned value, as the signed
formats of `struct.unpack` ("<h", "<i", "<q") produce it. -/
def toSigned (w : Nat) (n : Nat) : Int :=
  if n < 2 ^ (w - 1) then (n : Int) else (n : Int) - 2 ^ w

/-- Python's `~v` (bitwise complement) on its unbounded ints. -/
def pyNot (v : Int) : Int := -v - 1

/-- A readable binary file: its bytes and the cursor (`f.tell()`). -/
structure ByteStream where
  data : List Nat
  pos : Nat
deriving DecidableEq

/-- `f.read(n)`: up to `n` bytes from the cursor, cursor advanced past what
was returned (reads at or past the end return nothing). -/
def bread (s : ByteStream) (n : Nat) : List Nat × ByteStream :=
  (((s.data.drop s.pos).take n), ⟨s.data, min (s.pos + n) s.data.length⟩)

/-! ## Decoded values

A Python `float` kept exact: a finite IEEE value is a rational, the
infinities and NaN are tagged. -/

inductive PyFloat where
  | fin (q : ℚ)
  | inf (neg : Bool)
  | nan
deriving DecidableEq

/-- One numeric Python value as the decoder produces it: `int`, `bool`
(a subclass of `int` in Python, so it passes `isinstance(v, (int, float))`)
or `float`. -/
inductive NumElem where
  | i (v : Int)
  | b (v : Bool)
  | f (v : PyFloat)
deriving DecidableEq

/-- The payload of one decoded FBX property (`FBXProperty.value` in the
source): a numeric scalar, a list of numerics (what `_read_array` returns),
a decoded string or raw bytes. -/
inductive PValue where
  | num (e : NumElem)
  | arr (xs : List NumElem)
  | str (bs : List Nat)
  | bytes (bs : List Nat)
deriving DecidableEq

/-- `FBXProperty`: a type-code character and a decoded value. -/
structure FBXProperty where
  type_code : Char
  value : PValue
deriving DecidableEq

/-- `FBXNode`: name, ordered properties, ordered children (a strict tree). -/
inductive FBXNode where
  | mk (name : String) (properties : List FBXProperty) (children : List FBXNode)

def FBXNode.name : FBXNode → String
  | .mk n _ _ => n

def FBXNode.properties : FBXNode → List FBXProperty
  | .mk _ ps _ => ps

def FBXNode.children : FBXNode → List FBXNode
  | .mk _ _ cs => cs

/-- `FBXNode.find`: the first direct child with the given name. -/
def FBXNode.find (n : FBXNode) (s : String) : Option FBXNode :=
  n.children.find? (fun c => c.name == s)

/-- `GeometryData`: one extracted mesh. -/
structure GeometryData where
  vertices : List PyFloat
  indices : List Int
  normals : List PyFloat
  uvs : List PyFloat
  uv_indices : List Int
deriving DecidableEq

/-- The empty `GeometryData()` (every field defaults to an empty list). -/
def GeometryData.empty : GeometryData := ⟨[], [], [], [], []⟩

/-! ## Exception-carrying list maps

`mapME f` is a Python list comprehension whose body may raise: values in
order, aborted by the first exception. `mapMo` is the same over `Option`. -/

def mapME (f : α → Except Unit β) : List α → Except Unit (List β)
  | [] => .ok []
  | a :: l =>
    match f a with
    | .error e => .error e
    | .ok b => (mapME f l).map (fun bs => b :: bs)

def mapMo (f : α → Option β) : List α → Option (List β)
  | [] => some []
  | a :: l =>
    match f a with
    | none => none
    | some b => (mapMo f l).map (fun bs => b :: bs)

/-! ## `_extract_property_values` -/

/-- `isinstance(p.value, (int, float))`: the numeric scalar payloads
(`bool` included, it subclasses `int`). -/
def toNumOpt : PValue → Option NumElem
  | .num e => some e
  | _ => none

/-- Truncation toward zero, Python's `int(float)` on a finite value. -/
def ratTrunc (q : ℚ) : Int := q.num.tdiv q.den

/-- Python's `float(v)` on a numeric value. `float` of an `int` is modelled
as the exact rational (the converter only ever casts coordinates it then
writes out, no claim depends on double rounding of huge ints). -/
def castFloatE : NumElem → Except Unit PyFloat
  | .i v => .ok (.fin (v : ℚ))
  | .b b => .ok (.fin (if b then 1 else 0))
  | .f x => .ok x

/-- Python's `int(v)` on a numeric value: truncation on a finite float,
an exception (`ValueError`/`OverflowError`) on NaN or an infinity. -/
def castIntE : NumElem → Except Unit Int
  | .i v => .ok v
  | .b b => .ok (if b then 1 else 0)
  | .f (.fin q) => .ok (ratTrunc q)
  | .f _ => .error ()

/-- `_extract_property_values(node, cast_fn)`: `[]` for `None` or a node
without properties; the first property's list value cast element by element
when it is an array; otherwise every numeric scalar property cast in
property order (the scalar-burst convention). -/
def extractPropertyValuesE (node : Option FBXNode) (cast : NumElem → Except Unit α) :
    Except Unit (List α) :=
  match node with
  | none => .ok []
  | some n =>
    match n.properties with
    | [] => .ok []
    | first :: _ =>
      match first.value with
      | .arr xs => mapME cast xs
      | _ => mapME cast (n.properties.filterMap (fun p => toNumOpt p.value))

/-! ## `_read_array` -/

/-- The tail of `_read_array`: `count = len(raw) // elem_size`, clamped to
the declared length when they differ (`count = min(count, array_length)`),
then `struct.unpack` of the first `count` elements. `dec` decodes one
element from its `esize` bytes (the source selects it via the `fmt`
string). -/
def unpackElems (esize : Nat) (dec : List Nat → NumElem) (arrayLength : Nat)
    (raw : List Nat) : List NumElem :=
  let count := min (raw.length / esize) arrayLength
  (List.range count).map (fun j => dec ((raw.drop (j * esize)).take esize))

/-- `_read_array(f, fmt, elem_size)`: a 12-byte header of (element count,
encoding, compressed length); encoding 0 reads the raw payload, encoding 1
reads `compressed_length` bytes and inflates them (`[]` on `zlib.error`),
any other encoding skips the payload and yields `[]`. -/
def readArray (esize : Nat) (dec : List Nat → NumElem)
    (inflate : List Nat → Option (List Nat)) (s : ByteStream) :
    List NumElem × ByteStream :=
  let r := bread s 12
  if r.1.length < 12 then ([], r.2)
  else
    let arrayLength := leNat (r.1.take 4)
    let encoding := leNat ((r.1.drop 4).take 4)
    let compressedLength := leNat (r.1.drop 8)
    if encoding = 0 then
      let rr := bread r.2 (arrayLength * esize)
      (unpackElems esize dec arrayLength rr.1, rr.2)
    else if encoding = 1 then
      let rr := bread r.2 compressedLength
      match inflate rr.1 with
      | none => ([], rr.2)
      | some raw => (unpackElems esize dec arrayLength raw, rr.2)
    else
      let rr := bread r.2 compressedLength
      ([], rr.2)

/-! ## IEEE-754 bit-pattern decode (exact) -/

/-- Decode a little-endian IEEE-754 value with `exBits` exponent bits and
`manBits` mantissa bits into an exact `PyFloat`. -/
def decodeIEEE (exBits manBits : Nat) (bs : List Nat) : PyFloat :=
  let n := leNat bs
  let man := n % 2 ^ manBits
  let ex := n / 2 ^ manBits % 2 ^ exBits
  let sgn := n / 2 ^ (manBits + exBits) % 2
  let bias : Int := 2 ^ (exBits - 1) - 1
  if ex = 2 ^ exBits - 1 then
    if man = 0 then .inf (sgn = 1) else .nan
  else
    let mag : ℚ :=
      if ex = 0 then (man : ℚ) * (2 : ℚ) ^ (1 - bias - (manBits : Int))
      else ((2 ^ manBits + man : Nat) : ℚ) * (2 : ℚ) ^ ((ex : Int) - bias - (manBits : Int))
    .fin (if sgn = 1 then -mag else mag)

/-- One element of a "<f" array or an "F" scalar. -/
def decodeF32 (bs : List Nat) : NumElem := .f (decodeIEEE 8 23 bs)

/-- One element of a "<d" array or a "D" scalar. -/
def decodeF64 (bs : List Nat) : NumElem := .f (decodeIEEE 11 52 bs)

/-- One element of an "<i" array. -/
def decodeI32 (bs : List Nat) : NumElem := .i (toSigned 32 (leNat bs))

/-- One element of a "<q" array. -/
def decodeI64 (bs : List Nat) : NumElem := .i (toSigned 64 (leNat bs))

/-- One element of a "<?" array: a nonzero byte is `True`. -/
def decodeBool (bs : List Nat) : NumElem := .b (bs.headD 0 ≠ 0)

/-! ## `_read_property` and `_read_node` -/

/-- What `_read_property` can come back with: a decoded property, `None`
(end of stream, or an unknown type tag — the source logs and returns `None`
in both cases), or a raised `struct.error` from a short fixed-width read. -/
inductive PropResult where
  | prop (p : FBXProperty)
  | skip
  | err
deriving DecidableEq

/-- `_read_property(f)`: one byte of type tag, then the tag-directed
payload. Unknown tags consume only the tag byte and yield `PropResult.skip`
(the source returns `None`). -/
def readProperty (inflate : List Nat → Option (List Nat)) (s : ByteStream) :
    PropResult × ByteStream :=
  let r := bread s 1
  match r.1 with
  | [] => (.skip, r.2)
  | tc :: _ =>
    if tc = 89 then -- Y: int16
      let rr := bread r.2 2
      if rr.1.length < 2 then (.err, rr.2)
      else (.prop ⟨'Y', .num (.i (toSigned 16 (leNat rr.1)))⟩, rr.2)
    else if tc = 67 then -- C: bool, one byte
      let rr := bread r.2 1
      if rr.1.length < 1 then (.err, rr.2)
      else (.prop ⟨'C', .num (.b (rr.1.headD 0 ≠ 0))⟩, rr.2)
    else if tc = 73 then -- I: int32
      let rr := bread r.2 4
      if rr.1.length < 4 then (.err, rr.2)
      else (.prop ⟨'I', .num (.i (toSigned 32 (leNat rr.1)))⟩, rr.2)
    else if tc = 70 then -- F: float32
      let rr := bread r.2 4
      if rr.1.length < 4 then (.err, rr.2)
      else (.prop ⟨'F', .num (decodeF32 rr.1)⟩, rr.2)
    else if tc = 68 then -- D: float64
      let rr := bread r.2 8
      if rr.1.length < 8 then (.err, rr.2)
      else (.prop ⟨'D', .num (decodeF64 rr.1)⟩, rr.2)
    else if tc = 76 then -- L: int64
      let rr := bread r.2 8
      if rr.1.length < 8 then (.err, rr.2)
      else (.prop ⟨'L', .num (.i (toSigned 64 (leNat rr.1)))⟩, rr.2)
    else if tc = 102 then -- f: float32 array
      let rr := readArray 4 decodeF32 inflate r.2
      (.prop ⟨'f', .arr rr.1⟩, rr.2)
    else if tc = 100 then -- d: float64 array
      let rr := readArray 8 decodeF64 inflate r.2
      (.prop ⟨'d', .arr rr.1⟩, rr.2)
    else if tc = 105 then -- i: int32 array
      let rr := readArray 4 decodeI32 inflate r.2
      (.prop ⟨'i', .arr rr.1⟩, rr.2)
    else if tc = 108 then -- l: int64 array
      let rr := readArray 8 decodeI64 inflate r.2
      (.prop ⟨'l', .arr rr.1⟩, rr.2)
    else if tc = 98 then -- b: bool array
      let rr := readArray 1 decodeBool inflate r.2
      (.prop ⟨'b', .arr rr.1⟩, rr.2)
    else if tc = 83 then -- S: length-prefixed string
      let rr := bread r.2 4
      if rr.1.length < 4 then (.err, rr.2)
      else
        let rb := bread rr.2 (leNat rr.1)
        (.prop ⟨'S', .str rb.1⟩, rb.2)
    else if tc = 82 then -- R: length-prefixed raw bytes
      let rr := bread r.2 4
      if rr.1.length < 4 then (.err, rr.2)
      else
        let rb := bread rr.2 (leNat rr.1)
        (.prop ⟨'R', .bytes rb.1⟩, rb.2)
    else
      (.skip, r.2)

/-- The property loop of `_read_node` (`for _ in range(num_props)`): a
decoded property is appended, a `None` result is skipped AND THE LOOP
CONTINUES with the remaining iterations, a raised `struct.error`
propagates. -/
def readProps (inflate : List Nat → Option (List Nat)) :
    Nat → ByteStream → Except Unit (List FBXProperty × ByteStream)
  | 0, s => .ok ([], s)
  | k + 1, s =>
    match readProperty inflate s with
    | (.err, _) => .error ()
    | (.skip, s') => readProps inflate k s'
    | (.prop p, s') =>
      (readProps inflate k s').map (fun r => (p :: r.1, r.2))

/-- `bytes.decode("ascii", errors="replace")`: bytes above 127 become the
replacement character. -/
def asciiDecode (bs : List Nat) : String :=
  String.mk (bs.map (fun b => if b < 128 then Char.ofNat b else Char.ofNat 0xFFFD))

mutual

/-- `_read_node(f, version, use_64bit)`: fixed header (13 or 25 bytes, a
short read yields `None`), the all-zero end-offset null sentinel yields
`None`, then name, `num_props` properties (see `readProps`), children until
the cursor reaches `end_offset`, and a final seek to `end_offset`. The fuel
only bounds recursion depth (Python's stack / infinite `while` on a cursor
an inner record moved backwards). -/
def readNode (inflate : List Nat → Option (List Nat)) (use64 : Bool) :
    Nat → ByteStream → Except Unit (Option FBXNode × ByteStream)
  | 0, _ => .error ()
  | fuel + 1, s =>
    let hdrLen := if use64 then 25 else 13
    let r := bread s hdrLen
    if r.1.length < hdrLen then .ok (none, r.2)
    else
      let endOffset := if use64 then leNat (r.1.take 8) else leNat (r.1.take 4)
      let numProps :=
        if use64 then leNat ((r.1.drop 8).take 8) else leNat ((r.1.drop 4).take 4)
      let nameLen := if use64 then r.1.getD 24 0 else r.1.getD 12 0
      if endOffset = 0 then .ok (none, r.2)
      else
        let rn := bread r.2 nameLen
        match readProps inflate numProps rn.2 with
        | .error e => .error e
        | .ok (props, s3) =>
          match readNodeList inflate use64 fuel endOffset s3 with
          | .error e => .error e
          | .ok (childNodes, s4) =>
            .ok (some (.mk (asciiDecode rn.1) props childNodes), ⟨s4.data, endOffset⟩)

/-- The child loop of `_read_node`: `while f.tell() < end_offset`, stopping
at a `None` child (null sentinel or end of stream). -/
def readNodeList (inflate : List Nat → Option (List Nat)) (use64 : Bool) :
    Nat → Nat → ByteStream → Except Unit (List FBXNode × ByteStream)
  | 0, _, _ => .error ()
  | fuel + 1, endOff, s =>
    if s.pos < endOff then
      match readNode inflate use64 fuel s with
      | .error e => .error e
      | .ok (none, s') => .ok ([], s')
      | .ok (some c, s') =>
        match readNodeList inflate use64 fuel endOff s' with
        | .error e => .error e
        | .ok (cs, s'') => .ok (c :: cs, s'')
    else .ok ([], s)

end

/-- The top-level record loop of `_parse_fbx_binary` (`while True`,
stopping at the first `None`). -/
def parseTopLevel (inflate : List Nat → Option (List Nat)) (use64 : Bool) :
    Nat → ByteStream → Except Unit (List FBXNode × ByteStream)
  | 0, _ => .error ()
  | fuel + 1, s =>
    match readNode inflate use64 fuel s with
    | .error e => .error e
    | .ok (none, s') => .ok ([], s')
    | .ok (some nd, s') =>
      match parseTopLevel inflate use64 fuel s' with
      | .error e => .error e
      | .ok (ns, s'') => .ok (nd :: ns, s'')

/-- `_parse_fbx_binary`: skip the 27-byte header, read top-level records
into a synthetic `__root__` node; any raised error is caught and yields
`None`. -/
def parseFbxBinary (inflate : List Nat → Option (List Nat)) (bytes : List Nat)
    (version : Nat) : Option FBXNode :=
  match parseTopLevel inflate (decide (7500 ≤ version)) (bytes.length + 2) ⟨bytes, 27⟩ with
  | .error _ => none
  | .ok (kids, _) => some (.mk "__root__" [] kids)

/-! ## Geometry extraction (`_find_geometry_pairs`, `_extract_geometries`) -/

/-- The body of the match branch of `_find_geometry_pairs`: extract
vertices, indices, optional normals under `LayerElementNormal/Normals`,
optional UVs and UV indices under `LayerElementUV/UV`,`.../UVIndex`.
A raised cast exception propagates. -/
def extractGeoE (node vn ixn : FBXNode) : Except Unit GeometryData :=
  match extractPropertyValuesE (some vn) castFloatE with
  | .error e => .error e
  | .ok vertices =>
    match extractPropertyValuesE (some ixn) castIntE with
    | .error e => .error e
    | .ok indices =>
      let normalsE : Except Unit (List PyFloat) :=
        match node.find "LayerElementNormal" with
        | some layer => extractPropertyValuesE (layer.find "Normals") castFloatE
        | none => .ok []
      match normalsE with
      | .error e => .error e
      | .ok normals =>
        let uvsE : Except Unit (List PyFloat × List Int) :=
          match node.find "LayerElementUV" with
          | some layer =>
            match extractPropertyValuesE (layer.find "UV") castFloatE with
            | .error e => .error e
            | .ok uvs =>
              match extractPropertyValuesE (layer.find "UVIndex") castIntE with
              | .error e => .error e
              | .ok uvis => .ok (uvs, uvis)
          | none => .ok ([], [])
        match uvsE with
        | .error e => .error e
        | .ok uvsPair => .ok ⟨vertices, indices, normals, uvsPair.1, uvsPair.2⟩

mutual

/-- `_find_geometry_pairs(node, geometries)`, functionally: a node with
both a direct `Vertices` child and a direct `PolygonVertexIndex` child is
extracted (and emitted only when both extracted lists are nonempty) and its
children are NOT searched; otherwise the search recurses into the children
in order, appending what each yields. -/
def findGeometryPairs (n : FBXNode) : Except Unit (List GeometryData) :=
  match n.find "Vertices", n.find "PolygonVertexIndex" with
  | some vn, some ixn =>
    match extractGeoE n vn ixn with
    | .error e => .error e
    | .ok g => .ok (if g.vertices ≠ [] ∧ g.indices ≠ [] then [g] else [])
  | _, _ => findGeometryPairsList n.children
termination_by sizeOf n
decreasing_by cases n; simp [FBXNode.children]

/-- The recursion of `_find_geometry_pairs` over a child list. -/
def findGeometryPairsList : List FBXNode → Except Unit (List GeometryData)
  | [] => .ok []
  | c :: cs =>
    match findGeometryPairs c with
    | .error e => .error e
    | .ok g =>
      match findGeometryPairsList cs with
      | .error e => .error e
      | .ok gs => .ok (g ++ gs)
termination_by l => sizeOf l
decreasing_by all_goals first | (simp; omega) | simp

end

/-- `_extract_geometries(root)`: strategy 1 of the source (the
`find("Objects")`/`find_recursive("Vertices")` walk) has an empty loop body
and contributes nothing, so extraction is exactly the recursive pair
search. -/
def extractGeometries (root : FBXNode) : Except Unit (List GeometryData) :=
  findGeometryPairs root

/-- Whether a node has both a direct `Vertices` child and a direct
`PolygonVertexIndex` child (the claim's "geometry pairing"). -/
def hasPairing (n : FBXNode) : Bool :=
  (n.find "Vertices").isSome && (n.find "PolygonVertexIndex").isSome

mutual

/-- Specification-side description of what the search actually visits: the
nodes with a geometry pairing none of whose proper ancestors has one (the
search stops descending at the first pairing on each branch), in
depth-first order. -/
def topMatchingNodes (n : FBXNode) : List FBXNode :=
  match n.find "Vertices", n.find "PolygonVertexIndex" with
  | some _, some _ => [n]
  | _, _ => topMatchingNodesList n.children
termination_by sizeOf n
decreasing_by cases n; simp [FBXNode.children]

/-- `topMatchingNodes` over a child list. -/
def topMatchingNodesList : List FBXNode → List FBXNode
  | [] => []
  | c :: cs => topMatchingNodes c ++ topMatchingNodesList cs
termination_by l => sizeOf l
decreasing_by all_goals first | (simp; omega) | simp

end

mutual

/-- Claim-side description (C5's literal reading): EVERY node of the tree
with a geometry pairing, ancestors and descendants alike, in depth-first
order. -/
def allMatchingNodes (n : FBXNode) : List FBXNode :=
  (if hasPairing n then [n] else []) ++ allMatchingNodesList n.children
termination_by sizeOf n
decreasing_by cases n; simp [FBXNode.children]

/-- `allMatchingNodes` over a child list. -/
def allMatchingNodesList : List FBXNode → List FBXNode
  | [] => []
  | c :: cs => allMatchingNodes c ++ allMatchingNodesList cs
termination_by l => sizeOf l
decreasing_by all_goals first | (simp; omega) | simp

end

/-- What one matched node contributes: its extraction, emitted only when
both the vertex list and the index list are nonempty. -/
def extractEmit (m : FBXNode) : Except Unit (List GeometryData) :=
  match m.find "Vertices", m.find "PolygonVertexIndex" with
  | some vn, some ixn =>
    match extractGeoE m vn ixn with
    | .error e => .error e
    | .ok g => .ok (if g.vertices ≠ [] ∧ g.indices ≠ [] then [g] else [])
  | _, _ => .ok []

/-! ## The OBJ writer (`_write_obj`) -/

/-- One `v`/`vt`/`vn` triple of a face line: the 1-based combined indices
the writer prints (`v`, `v//vn` or `v/vt/vn`). -/
structure FaceVert where
  v : Int
  vt : Option Int
  vn : Option Int
deriving DecidableEq

/-- One line of the OBJ document. Coordinate payloads stay exact; the
fixed six-decimal text rendering is presentation only and carries no
claim. -/
inductive ObjLine where
  | comment
  | blank
  | objMarker (i : Nat)
  | vLine (x y z : PyFloat)
  | vnLine (x y z : PyFloat)
  | vtLine (u w : PyFloat)
  | face (parts : List FaceVert)
deriving DecidableEq

/-- The vertex-line loop: `num_verts = len(vertices) // 3` lines of
consecutive coordinate triples. -/
def vLines (l : List PyFloat) : List ObjLine :=
  (List.range (l.length / 3)).map
    (fun i => .vLine (l.getD (i * 3) (.fin 0)) (l.getD (i * 3 + 1) (.fin 0))
      (l.getD (i * 3 + 2) (.fin 0)))

/-- The normal-line loop. -/
def vnLines (l : List PyFloat) : List ObjLine :=
  (List.range (l.length / 3)).map
    (fun i => .vnLine (l.getD (i * 3) (.fin 0)) (l.getD (i * 3 + 1) (.fin 0))
      (l.getD (i * 3 + 2) (.fin 0)))

/-- The UV-line loop (`num_uvs = len(uvs) // 2`). -/
def vtLines (l : List PyFloat) : List ObjLine :=
  (List.range (l.length / 2)).map
    (fun i => .vtLine (l.getD (i * 2) (.fin 0)) (l.getD (i * 2 + 1) (.fin 0)))

/-- Python list subscription `l[k]`: a negative `k` counts from the end,
out of range raises `IndexError` (`none`). -/
def pyGet (l : List Int) (k : Int) : Option Int :=
  let j : Int := if k < 0 then (l.length : Int) + k else k
  if 0 ≤ j ∧ j < (l.length : Int) then some (l.getD j.toNat 0) else none

/-- One face part for polygon entry `e = (vi, ni)` of `poly`: the
`v/vt/vn`, `v//vn` or bare `v` combination the face loop prints, `none`
when the UV lookup `geo.uv_indices[ni - len(polygon) + polygon.index((vi,
ni))]` raises `IndexError`. -/
def buildFacePart (hasN hasU : Bool) (uvIdx : List Int) (vOff nOff uOff : Nat)
    (poly : List (Int × Nat)) (e : Int × Nat) : Option FaceVert :=
  if hasN && hasU && !uvIdx.isEmpty then
    match (if e.2 < uvIdx.length then
        pyGet uvIdx ((e.2 : Int) - (poly.length : Int) + (poly.indexOf e : Int))
      else some 0) with
    | none => none
    | some uvI =>
      some ⟨e.1 + 1 + (vOff : Int), some (uvI + 1 + (uOff : Int)),
        some ((e.2 : Int) + 1 + (nOff : Int))⟩
  else if hasN then
    some ⟨e.1 + 1 + (vOff : Int), none, some ((e.2 : Int) + 1 + (nOff : Int))⟩
  else some ⟨e.1 + 1 + (vOff : Int), none, none⟩

/-- The `face_parts` loop over one closed polygon. -/
def buildFace (hasN hasU : Bool) (uvIdx : List Int) (vOff nOff uOff : Nat)
    (poly : List (Int × Nat)) : Option (List FaceVert) :=
  mapMo (buildFacePart hasN hasU uvIdx vOff nOff uOff poly) poly

/-- The face-writing loop of `_write_obj` over the raw index stream:
entries are `(vertex index, running normal_idx)` pairs; a negative raw
index appends its bitwise complement, emits one face line and resets the
polygon; the `Bool` is `false` when a face raised `IndexError` (faces
already written stay written). A trailing open polygon is dropped. -/
def faceLoop (hasN hasU : Bool) (uvIdx : List Int) (vOff nOff uOff : Nat) :
    List Int → List (Int × Nat) → Nat → List (List FaceVert) × Bool
  | [], _, _ => ([], true)
  | raw :: rest, polygon, nIdx =>
    if raw < 0 then
      match buildFace hasN hasU uvIdx vOff nOff uOff (polygon ++ [(pyNot raw, nIdx)]) with
      | none => ([], false)
      | some face =>
        let r := faceLoop hasN hasU uvIdx vOff nOff uOff rest [] (nIdx + 1)
        (face :: r.1, r.2)
    else faceLoop hasN hasU uvIdx vOff nOff uOff rest (polygon ++ [(raw, nIdx)]) (nIdx + 1)

/-- The per-geometry body of `_write_obj`: optional `o Mesh_{gi}` marker
(only when the document has more than one geometry), vertex lines, normal
lines if any, UV lines if any, a blank line, then the face lines; the
`Bool` is the face loop's success. -/
def writeGeoLines (multi : Bool) (gi : Nat) (g : GeometryData)
    (vOff nOff uOff : Nat) : List ObjLine × Bool :=
  let hasN := !g.normals.isEmpty
  let hasU := !g.uvs.isEmpty
  let fl := faceLoop hasN hasU g.uv_indices vOff nOff uOff g.indices [] 0
  ((if multi then [ObjLine.objMarker gi] else []) ++ vLines g.vertices ++
      (if hasN then vnLines g.normals else []) ++
      (if hasU then vtLines g.uvs else []) ++
      [ObjLine.blank] ++ fl.1.map ObjLine.face,
    fl.2)

/-- The geometry loop of `_write_obj`: offsets accumulate by what each
geometry contributed (`num_verts`, and the normal/UV counts only when
present); an `IndexError` aborts the loop with the lines already
written. -/
def writeObjGo (multi : Bool) :
    List GeometryData → Nat → Nat → Nat → Nat → List ObjLine × Bool
  | [], _, _, _, _ => ([], true)
  | g :: rest, gi, vOff, nOff, uOff =>
    let r := writeGeoLines multi gi g vOff nOff uOff
    if r.2 then
      let rr := writeObjGo multi rest (gi + 1) (vOff + g.vertices.length / 3)
        (nOff + if !g.normals.isEmpty then g.normals.length / 3 else 0)
        (uOff + if !g.uvs.isEmpty then g.uvs.length / 2 else 0)
      (r.1 ++ ObjLine.blank :: rr.1, rr.2)
    else (r.1, false)

/-- `_write_obj(geometries, path)`: the two header comment lines and blank,
then the geometry loop. The `Bool` is `false` when the write died on an
`IndexError` — the lines before it are on disk, the file stays partial. -/
def writeObj (gs : List GeometryData) : List ObjLine × Bool :=
  let r := writeObjGo (decide (1 < gs.length)) gs 0 0 0 0
  (ObjLine.comment :: ObjLine.comment :: ObjLine.blank :: r.1, r.2)

/-! ## The ASCII-path writer (`_convert_ascii_fbx_to_obj`, write phase) -/

/-- One geometry block of the ASCII path (a `{"vertices", "indices",
"normals"}` dict in the source). -/
structure AsciiGeometry where
  vertices : List PyFloat
  indices : List Int
  normals : List PyFloat
deriving DecidableEq

/-- The face parts of one closed polygon in the ASCII writer: here
`normal_idx` advances once per EMITTED part (it does not advance while the
polygon accumulates), and a part degrades to bare `v` once `normal_idx`
runs past `len(normals) // 3`. -/
def asciiFaceParts (hasN : Bool) (numN vOff nOff : Nat) (poly : List Int)
    (nIdx : Nat) : List FaceVert :=
  poly.enum.map (fun je =>
    if hasN && decide (nIdx + je.1 < numN) then
      ⟨je.2 + 1 + (vOff : Int), none, some ((nIdx + je.1 : Nat) + 1 + (nOff : Int))⟩
    else ⟨je.2 + 1 + (vOff : Int), none, none⟩)

/-- The face loop of the ASCII writer: as the binary one, but the polygon
holds bare vertex indices and `normal_idx` only moves at emission. It
cannot raise. -/
def asciiFaceLoop (hasN : Bool) (numN vOff nOff : Nat) :
    List Int → List Int → Nat → List (List FaceVert)
  | [], _, _ => []
  | raw :: rest, polygon, nIdx =>
    if raw < 0 then
      asciiFaceParts hasN numN vOff nOff (polygon ++ [pyNot raw]) nIdx ::
        asciiFaceLoop hasN numN vOff nOff rest [] (nIdx + (polygon ++ [pyNot raw]).length)
    else asciiFaceLoop hasN numN vOff nOff rest (polygon ++ [raw]) nIdx

/-- The geometry loop of the ASCII writer: the `o Mesh_{gi}` marker is
written UNCONDITIONALLY for every record, then vertex lines, normal lines
when `len(normals) >= 3`, the face lines, a blank line. -/
def asciiWriteGo : List AsciiGeometry → Nat → Nat → Nat → List ObjLine
  | [], _, _, _ => []
  | g :: rest, gi, vOff, nOff =>
    let hasN := decide (3 ≤ g.normals.length)
    ObjLine.objMarker gi ::
      (vLines g.vertices ++ (if hasN then vnLines g.normals else []) ++
        (asciiFaceLoop hasN (g.normals.length / 3) vOff nOff g.indices [] 0).map ObjLine.face ++
        [ObjLine.blank] ++
        asciiWriteGo rest (gi + 1) (vOff + g.vertices.length / 3)
          (nOff + if hasN then g.normals.length / 3 else 0))

/-- The whole ASCII-path OBJ document: header comments and blank, then the
geometry loop. -/
def asciiWriteObj (gs : List AsciiGeometry) : List ObjLine :=
  ObjLine.comment :: ObjLine.comment :: ObjLine.blank :: asciiWriteGo gs 0 0 0

/-! ## Observations on an OBJ document -/

/-- The face lines of a document, in order. -/
def faceLinesOf (lines : List ObjLine) : List (List FaceVert) :=
  lines.filterMap (fun l => match l with | .face ps => some ps | _ => none)

/-- The `v`-index lists of the face lines of a document. -/
def faceVLists (lines : List ObjLine) : List (List Int) :=
  (faceLinesOf lines).map (fun ps => ps.map FaceVert.v)

/-- Whether a line is a named-object marker. -/
def isMarker : ObjLine → Bool
  | .objMarker _ => true
  | _ => false

/-- Cumulative vertex-element offset in front of record `r`: the sum of
`len(vertices) // 3` over the records before it. -/
def cumV (gs : List GeometryData) (r : Nat) : Nat :=
  ((gs.take r).map (fun g => g.vertices.length / 3)).sum

/-- Cumulative normal offset in front of record `r` (only records with
normals contribute, as in the source's conditional accumulation). -/
def cumN (gs : List GeometryData) (r : Nat) : Nat :=
  ((gs.take r).map (fun g => if !g.normals.isEmpty then g.normals.length / 3 else 0)).sum

/-- Cumulative UV offset in front of record `r`. -/
def cumU (gs : List GeometryData) (r : Nat) : Nat :=
  ((gs.take r).map (fun g => if !g.uvs.isEmpty then g.uvs.length / 2 else 0)).sum

/-! ## Specification-side winding decode (§4.5 of the spec)

Written from the spec's words, to be compared with the writer: accumulate
non-negative indices, a negative value appends its bitwise complement as
the final vertex and closes the polygon; a trailing open polygon yields
nothing. -/

/-- The winding decode with an explicit open-polygon accumulator. -/
def specWindingPolysAux : List Int → List Int → List (List Int)
  | [], _ => []
  | v :: rest, acc =>
    if v < 0 then (acc ++ [pyNot v]) :: specWindingPolysAux rest []
    else specWindingPolysAux rest (acc ++ [v])

/-- The polygons (as lists of zero-based vertex indices) a raw index
stream denotes. -/
def specWindingPolys (l : List Int) : List (List Int) :=
  specWindingPolysAux l []

/-- The face pass of record `r` as the writer performs it when the records
are written in order: the offsets passed to it are the cumulative element
counts of all previous records. -/
def recordFaceLoop (gs : List GeometryData) (vOff nOff uOff : Nat) (r : Nat) :
    List (List FaceVert) × Bool :=
  let g := gs.getD r GeometryData.empty
  faceLoop (!g.normals.isEmpty) (!g.uvs.isEmpty) g.uv_indices
    (vOff + cumV gs r) (nOff + cumN gs r) (uOff + cumU gs r) g.indices [] 0

/-! ## Concrete inputs used by counterexamples and failure evaluations -/

/-- A byte stream of two sibling 32-bit node records: the first (named "N",
`end_offset` 20) declares two properties — an unknown type tag `u` followed
by a well-formed 'I' int32 property holding 5 — the second (named "M",
`end_offset` 34) has none. -/
def nodeStreamBytes (u : Nat) : List Nat :=
  [20, 0, 0, 0, 2, 0, 0, 0, 6, 0, 0, 0, 1, 78, u, 73, 5, 0, 0, 0,
   34, 0, 0, 0, 0, 0, 0, 0, 0, 0, 0, 0, 1, 77]

/-- A `Vertices` node carrying three coordinates as one array property. -/
def cexVerts : FBXNode := .mk "Vertices" [⟨'d', .arr [.i 0, .i 0, .i 0]⟩] []

/-- A `PolygonVertexIndex` node carrying one closed polygon. -/
def cexIdx : FBXNode := .mk "PolygonVertexIndex" [⟨'i', .arr [.i 0, .i (-1)]⟩] []

/-- A geometry pairing nested INSIDE another geometry pairing. -/
def cexInner : FBXNode := .mk "Inner" [] [cexVerts, cexIdx]

/-- A node with a geometry pairing that also contains `cexInner`. -/
def cexOuter : FBXNode := .mk "Outer" [] [cexVerts, cexIdx, cexInner]

/-- A parsed tree with two nodes that both have a geometry pairing, one
nested under the other. -/
def cexTree : FBXNode := .mk "__root__" [] [cexOuter]

/-- A geometry whose `uv_indices` list (one entry) is shorter than its
first polygon (two vertices): the writer's UV lookup for the first face
vertex is `uv_indices[0 - 2 + 0] = uv_indices[-2]`, an `IndexError` on a
one-element list. -/
def crashGeo : GeometryData :=
  ⟨[.fin 0, .fin 0, .fin 0], [0, -2], [.fin 0, .fin 0, .fin 1],
   [.fin 0, .fin 0], [7]⟩

/-! ## Helper lemmas -/

theorem mapMo_eq_map {α β γ : Type _} {f : α → Option β} {G : β → γ} {g : α → γ}
    (hfg : ∀ a b, f a = some b → G b = g a) :
    ∀ {l : List α} {r : List β}, mapMo f l = some r → r.map G = l.map g := by
  intro l
  induction l with
  | nil =>
    intro r h
    simp only [mapMo, Option.some.injEq] at h
    subst h
    simp
  | cons a t ih =>
    intro r h
    simp only [mapMo] at h
    cases hfa : f a with
    | none => rw [hfa] at h; exact absurd h (by simp)
    | some b =>
      rw [hfa] at h
      cases hmt : mapMo f t with
      | none => rw [hmt] at h; exact absurd h (by simp)
      | some rt =>
        rw [hmt] at h
        simp only [Option.map_some', Option.some.injEq] at h
        subst h
        simp [ih hmt, hfg a b hfa]

theorem buildFacePart_v {hasN hasU : Bool} {uvIdx : List Int} {vOff nOff uOff : Nat}
    {poly : List (Int × Nat)} {e : Int × Nat} {fv : FaceVert}
    (h : buildFacePart hasN hasU uvIdx vOff nOff uOff poly e = some fv) :
    fv.v = e.1 + 1 + (vOff : Int) := by
  unfold buildFacePart at h
  split at h
  · split at h
    · exact absurd h (by simp)
    · simp only [Option.some.injEq] at h; subst h; rfl
  · split at h
    · simp only [Option.some.injEq] at h; subst h; rfl
    · simp only [Option.some.injEq] at h; subst h; rfl


theorem buildFace_v {hasN hasU : Bool} {uvIdx : List Int} {vOff nOff uOff : Nat}
    {poly : List (Int × Nat)} {f : List FaceVert}
    (h : buildFace hasN hasU uvIdx vOff nOff uOff poly = some f) :
    f.map FaceVert.v = poly.map (fun e => e.1 + 1 + (vOff : Int)) :=
  mapMo_eq_map (fun _ _ hb => buildFacePart_v hb) h

theorem faceLoop_spec (hasN hasU : Bool) (uvIdx : List Int) (vOff nOff uOff : Nat) :
    ∀ (idxs : List Int) (polygon : List (Int × Nat)) (nIdx : Nat),
      (faceLoop hasN hasU uvIdx vOff nOff uOff idxs polygon nIdx).2 = true →
      (faceLoop hasN hasU uvIdx vOff nOff uOff idxs polygon nIdx).1.map
          (fun f => f.map FaceVert.v)
        = (specWindingPolysAux idxs (polygon.map Prod.fst)).map
            (fun poly => poly.map (fun vi => vi + 1 + (vOff : Int))) := by
  intro idxs
  induction idxs with
  | nil => intro polygon nIdx _; simp [faceLoop, specWindingPolysAux]
  | cons raw rest ih =>
    intro polygon nIdx hok
    by_cases hneg : raw < 0
    · rw [faceLoop] at hok ⊢
      simp only [if_pos hneg]
      simp only [if_pos hneg] at hok
      cases hbf : buildFace hasN hasU uvIdx vOff nOff uOff (polygon ++ [(pyNot raw, nIdx)]) with
      | none => rw [hbf] at hok; exact absurd hok (by simp)
      | some face =>
        rw [hbf] at hok
        simp only at hok
        simp only [List.map_cons, specWindingPolysAux, if_pos hneg]
        refine congrArg₂ List.cons ?_ ?_
        · have hv := buildFace_v hbf
          rw [hv]
          simp
        · have := ih [] (nIdx + 1) hok
          simpa using this
    · rw [faceLoop] at hok ⊢
      simp only [if_neg hneg] at hok ⊢
      rw [specWindingPolysAux, if_neg hneg]
      have := ih (polygon ++ [(raw, nIdx)]) (nIdx + 1) hok
      simpa using this

theorem specWindingPolysAux_length (idxs : List Int) :
    ∀ acc : List Int, (specWindingPolysAux idxs acc).length
      = (idxs.filter (fun v => v < 0)).length := by
  induction idxs with
  | nil => intro acc; simp [specWindingPolysAux]
  | cons raw rest ih =>
    intro acc
    by_cases hneg : raw < 0
    · simp [specWindingPolysAux, hneg, ih]
    · simp [specWindingPolysAux, hneg, ih]

theorem faceLoop_lastV (hasN hasU : Bool) (uvIdx : List Int) (vOff nOff uOff : Nat) :
    ∀ (idxs : List Int) (polygon : List (Int × Nat)) (nIdx : Nat),
      (faceLoop hasN hasU uvIdx vOff nOff uOff idxs polygon nIdx).2 = true →
      List.Forall₂ (fun f v => (List.map FaceVert.v f).getLast? = some (pyNot v + 1 + (vOff : Int)))
        (faceLoop hasN hasU uvIdx vOff nOff uOff idxs polygon nIdx).1
        (idxs.filter (fun v => v < 0)) := by
  intro idxs
  induction idxs with
  | nil => intro polygon nIdx _; simp [faceLoop]
  | cons raw rest ih =>
    intro polygon nIdx hok
    by_cases hneg : raw < 0
    · rw [faceLoop] at hok ⊢
      simp only [if_pos hneg] at hok ⊢
      cases hbf : buildFace hasN hasU uvIdx vOff nOff uOff (polygon ++ [(pyNot raw, nIdx)]) with
      | none => rw [hbf] at hok; exact absurd hok (by simp)
      | some face =>
        rw [hbf] at hok
        simp only at hok
        rw [List.filter_cons_of_pos (by simpa using hneg)]
        refine List.Forall₂.cons ?_ (ih [] (nIdx + 1) hok)
        rw [buildFace_v hbf]
        simp
    · rw [faceLoop] at hok ⊢
      simp only [if_neg hneg] at hok ⊢
      rw [List.filter_cons_of_neg (by simpa using hneg)]
      exact ih (polygon ++ [(raw, nIdx)]) (nIdx + 1) hok

theorem faceLoop_all_nonneg (hasN hasU : Bool) (uvIdx : List Int) (vOff nOff uOff : Nat) :
    ∀ (t : List Int), (∀ x ∈ t, ¬x < 0) →
      ∀ (polygon : List (Int × Nat)) (nIdx : Nat),
        faceLoop hasN hasU uvIdx vOff nOff uOff t polygon nIdx = ([], true) := by
  intro t
  induction t with
  | nil => intro _ polygon nIdx; rfl
  | cons raw rest ih =>
    intro ht polygon nIdx
    rw [faceLoop, if_neg (ht raw (by simp))]
    exact ih (fun x hx => ht x (by simp [hx])) _ _

theorem faceLoop_append_nonneg (hasN hasU : Bool) (uvIdx : List Int) (vOff nOff uOff : Nat)
    (s t : List Int) (ht : ∀ x ∈ t, ¬x < 0) :
    ∀ (polygon : List (Int × Nat)) (nIdx : Nat),
      faceLoop hasN hasU uvIdx vOff nOff uOff (s ++ t) polygon nIdx
        = faceLoop hasN hasU uvIdx vOff nOff uOff s polygon nIdx := by
  induction s with
  | nil =>
    intro polygon nIdx
    rw [List.nil_append, faceLoop_all_nonneg hasN hasU uvIdx vOff nOff uOff t ht]
    rfl
  | cons raw rest ih =>
    intro polygon nIdx
    rw [List.cons_append, faceLoop, faceLoop]
    by_cases hneg : raw < 0
    · simp only [if_pos hneg]
      cases hbf : buildFace hasN hasU uvIdx vOff nOff uOff (polygon ++ [(pyNot raw, nIdx)]) with
      | none => rfl
      | some face => simp only [ih]
    · simp only [if_neg hneg]
      exact ih _ _

theorem asciiFaceLoop_all_nonneg (hasN : Bool) (numN vOff nOff : Nat) :
    ∀ (t : List Int), (∀ x ∈ t, ¬x < 0) →
      ∀ (polygon : List Int) (nIdx : Nat),
        asciiFaceLoop hasN numN vOff nOff t polygon nIdx = [] := by
  intro t
  induction t with
  | nil => intro _ polygon nIdx; rfl
  | cons raw rest ih =>
    intro ht polygon nIdx
    rw [asciiFaceLoop, if_neg (ht raw (by simp))]
    exact ih (fun x hx => ht x (by simp [hx])) _ _

theorem asciiFaceLoop_append_nonneg (hasN : Bool) (numN vOff nOff : Nat)
    (s t : List Int) (ht : ∀ x ∈ t, ¬x < 0) :
    ∀ (polygon : List Int) (nIdx : Nat),
      asciiFaceLoop hasN numN vOff nOff (s ++ t) polygon nIdx
        = asciiFaceLoop hasN numN vOff nOff s polygon nIdx := by
  induction s with
  | nil =>
    intro polygon nIdx
    rw [List.nil_append, asciiFaceLoop_all_nonneg hasN numN vOff nOff t ht]
    rfl
  | cons raw rest ih =>
    intro polygon nIdx
    rw [List.cons_append, asciiFaceLoop, asciiFaceLoop]
    by_cases hneg : raw < 0
    · simp only [if_pos hneg, ih]
    · simp only [if_neg hneg]
      exact ih _ _

theorem faceLinesOf_append (a b : List ObjLine) :
    faceLinesOf (a ++ b) = faceLinesOf a ++ faceLinesOf b :=
  List.filterMap_append a b _

theorem faceLinesOf_vLines (l : List PyFloat) : faceLinesOf (vLines l) = [] := by
  simp [faceLinesOf, vLines, List.filterMap_map]

theorem faceLinesOf_vnLines (l : List PyFloat) : faceLinesOf (vnLines l) = [] := by
  simp [faceLinesOf, vnLines, List.filterMap_map]

theorem faceLinesOf_vtLines (l : List PyFloat) : faceLinesOf (vtLines l) = [] := by
  simp [faceLinesOf, vtLines, List.filterMap_map]

theorem faceLinesOf_faceMap (fs : List (List FaceVert)) :
    faceLinesOf (fs.map ObjLine.face) = fs := by
  induction fs with
  | nil => rfl
  | cons f fs ih => simpa [faceLinesOf, List.filterMap_cons] using ih

theorem faceLinesOf_blank : faceLinesOf [ObjLine.blank] = [] := rfl

theorem faceLinesOf_marker (gi : Nat) : faceLinesOf [ObjLine.objMarker gi] = [] := rfl

theorem faceLinesOf_cons_blank (ls : List ObjLine) :
    faceLinesOf (ObjLine.blank :: ls) = faceLinesOf ls := rfl

theorem faceLinesOf_cons_marker (gi : Nat) (ls : List ObjLine) :
    faceLinesOf (ObjLine.objMarker gi :: ls) = faceLinesOf ls := rfl

theorem writeGeoLines_faces (multi : Bool) (gi : Nat) (g : GeometryData)
    (vOff nOff uOff : Nat) :
    faceLinesOf (writeGeoLines multi gi g vOff nOff uOff).1
      = (faceLoop (!g.normals.isEmpty) (!g.uvs.isEmpty) g.uv_indices vOff nOff uOff
          g.indices [] 0).1 := by
  rw [writeGeoLines]
  cases multi <;> cases hb : !g.normals.isEmpty <;> cases hc : !g.uvs.isEmpty <;>
    simp [hb, hc, faceLinesOf_append, faceLinesOf_vLines, faceLinesOf_vnLines,
      faceLinesOf_vtLines, faceLinesOf_faceMap, faceLinesOf_blank, faceLinesOf_marker,
      faceLinesOf_cons_blank, faceLinesOf_cons_marker]

theorem cumV_zero (gs : List GeometryData) : cumV gs 0 = 0 := rfl

theorem cumN_zero (gs : List GeometryData) : cumN gs 0 = 0 := rfl

theorem cumU_zero (gs : List GeometryData) : cumU gs 0 = 0 := rfl

theorem cumV_cons_succ (g : GeometryData) (rest : List GeometryData) (r : Nat) :
    cumV (g :: rest) (r + 1) = g.vertices.length / 3 + cumV rest r := by
  simp [cumV]

theorem cumN_cons_succ (g : GeometryData) (rest : List GeometryData) (r : Nat) :
    cumN (g :: rest) (r + 1)
      = (if !g.normals.isEmpty then g.normals.length / 3 else 0) + cumN rest r := by
  simp [cumN]

theorem cumU_cons_succ (g : GeometryData) (rest : List GeometryData) (r : Nat) :
    cumU (g :: rest) (r + 1)
      = (if !g.uvs.isEmpty then g.uvs.length / 2 else 0) + cumU rest r := by
  simp [cumU]

theorem recordFaceLoop_zero (g : GeometryData) (rest : List GeometryData)
    (vOff nOff uOff : Nat) :
    recordFaceLoop (g :: rest) vOff nOff uOff 0
      = faceLoop (!g.normals.isEmpty) (!g.uvs.isEmpty) g.uv_indices vOff nOff uOff
          g.indices [] 0 := by
  simp [recordFaceLoop, cumV_zero, cumN_zero, cumU_zero]

theorem recordFaceLoop_succ (g : GeometryData) (rest : List GeometryData)
    (vOff nOff uOff : Nat) (r : Nat) :
    recordFaceLoop (g :: rest) vOff nOff uOff (r + 1)
      = recordFaceLoop rest (vOff + g.vertices.length / 3)
          (nOff + if !g.normals.isEmpty then g.normals.length / 3 else 0)
          (uOff + if !g.uvs.isEmpty then g.uvs.length / 2 else 0) r := by
  simp only [recordFaceLoop, List.getD_cons_succ, cumV_cons_succ, cumN_cons_succ,
    cumU_cons_succ, Nat.add_assoc]

theorem recordFaceLoop_nil (vOff nOff uOff : Nat) (r : Nat) :
    recordFaceLoop [] vOff nOff uOff r = ([], true) := rfl

theorem writeObjGo_ok_record (multi : Bool) :
    ∀ (gs : List GeometryData) (gi vOff nOff uOff : Nat),
      (writeObjGo multi gs gi vOff nOff uOff).2 = true →
      ∀ r, (recordFaceLoop gs vOff nOff uOff r).2 = true := by
  intro gs
  induction gs with
  | nil => intro gi vOff nOff uOff _ r; rw [recordFaceLoop_nil]
  | cons g rest ih =>
    intro gi vOff nOff uOff hok r
    rw [writeObjGo] at hok
    simp only at hok
    cases hw : (writeGeoLines multi gi g vOff nOff uOff).2 with
    | false => rw [hw] at hok; simp at hok
    | true =>
      rw [hw] at hok
      simp only [if_true] at hok
      cases r with
      | zero =>
        rw [recordFaceLoop_zero]
        have : (writeGeoLines multi gi g vOff nOff uOff).2
            = (faceLoop (!g.normals.isEmpty) (!g.uvs.isEmpty) g.uv_indices vOff nOff uOff
                g.indices [] 0).2 := rfl
        rw [this] at hw
        exact hw
      | succ r' =>
        rw [recordFaceLoop_succ]
        exact ih (gi + 1) _ _ _ hok r'

theorem writeObjGo_faces (multi : Bool) :
    ∀ (gs : List GeometryData) (gi vOff nOff uOff : Nat),
      (writeObjGo multi gs gi vOff nOff uOff).2 = true →
      faceLinesOf (writeObjGo multi gs gi vOff nOff uOff).1
        = ((List.range gs.length).map
            (fun r => (recordFaceLoop gs vOff nOff uOff r).1)).flatten := by
  intro gs
  induction gs with
  | nil => intro gi vOff nOff uOff _; simp [writeObjGo, faceLinesOf]
  | cons g rest ih =>
    intro gi vOff nOff uOff hok
    rw [writeObjGo] at hok ⊢
    simp only at hok ⊢
    split at hok
    case isFalse hw => simp at hok
    case isTrue hw =>
      rw [if_pos hw]
      simp only at hok
      rw [faceLinesOf_append, faceLinesOf_cons_blank, writeGeoLines_faces]
      rw [ih (gi + 1) _ _ _ hok]
      rw [List.length_cons, List.range_succ_eq_map]
      simp only [List.map_cons, List.map_map, List.flatten_cons]
      rw [recordFaceLoop_zero]
      refine congrArg₂ (· ++ ·) rfl ?_
      refine congrArg List.flatten ?_
      refine List.map_congr_left ?_
      intro r _
      simp only [Function.comp_apply]
      rw [recordFaceLoop_succ]

theorem countP_isMarker_vLines (l : List PyFloat) : (vLines l).countP isMarker = 0 := by
  simp [vLines, List.countP_map, isMarker, Function.comp_def]

theorem countP_isMarker_vnLines (l : List PyFloat) : (vnLines l).countP isMarker = 0 := by
  simp [vnLines, List.countP_map, isMarker, Function.comp_def]

theorem countP_isMarker_vtLines (l : List PyFloat) : (vtLines l).countP isMarker = 0 := by
  simp [vtLines, List.countP_map, isMarker, Function.comp_def]

theorem countP_isMarker_faceMap (fs : List (List FaceVert)) :
    (fs.map ObjLine.face).countP isMarker = 0 := by
  simp [List.countP_map, isMarker, Function.comp_def]

theorem countP_isMarker_writeGeoLines (multi : Bool) (gi : Nat) (g : GeometryData)
    (vOff nOff uOff : Nat) :
    (writeGeoLines multi gi g vOff nOff uOff).1.countP isMarker
      = if multi then 1 else 0 := by
  rw [writeGeoLines]
  cases multi <;> cases hb : !g.normals.isEmpty <;> cases hc : !g.uvs.isEmpty <;>
    simp [hb, hc, List.countP_append, countP_isMarker_vLines, countP_isMarker_vnLines,
      countP_isMarker_vtLines, countP_isMarker_faceMap, List.countP_cons, isMarker]

theorem countP_isMarker_writeObjGo (multi : Bool) :
    ∀ (gs : List GeometryData) (gi vOff nOff uOff : Nat),
      (writeObjGo multi gs gi vOff nOff uOff).2 = true →
      (writeObjGo multi gs gi vOff nOff uOff).1.countP isMarker
        = if multi then gs.length else 0 := by
  intro gs
  induction gs with
  | nil => intro gi vOff nOff uOff _; cases multi <;> simp [writeObjGo]
  | cons g rest ih =>
    intro gi vOff nOff uOff hok
    rw [writeObjGo] at hok ⊢
    simp only at hok ⊢
    split at hok
    case isFalse hw => simp at hok
    case isTrue hw =>
      rw [if_pos hw]
      simp only at hok
      rw [List.countP_append, List.countP_cons, countP_isMarker_writeGeoLines,
        ih (gi + 1) _ _ _ hok]
      cases multi
      · simp [isMarker]
      · simp [isMarker]
        omega

theorem countP_isMarker_asciiWriteGo :
    ∀ (gs : List AsciiGeometry) (gi vOff nOff : Nat),
      (asciiWriteGo gs gi vOff nOff).countP isMarker = gs.length := by
  intro gs
  induction gs with
  | nil => intro gi vOff nOff; rfl
  | cons g rest ih =>
    intro gi vOff nOff
    rw [asciiWriteGo]
    simp only [List.countP_cons, List.countP_append]
    rw [countP_isMarker_vLines, countP_isMarker_faceMap, ih (gi + 1)]
    cases hb : decide (3 ≤ g.normals.length) <;>
      simp [hb, isMarker, countP_isMarker_vnLines, List.countP_cons]

/-! ## Claim theorems -/

/-- C3: dual-convention equivalence. For every sequence of numeric elements
and every cast function, extracting from a node carrying the N elements as
ONE array property and extracting from a node carrying them as N individual
scalar numeric properties (in the same order) yield the same flat sequence.
The node names and the property type-code characters are arbitrary on both
sides. -/
theorem dualConvention_extract_eq {α : Type} (cast : NumElem → Except Unit α)
    (tc tc' : Char) (nm nm' : String) (xs : List NumElem) :
    extractPropertyValuesE (some (.mk nm [⟨tc, .arr xs⟩] [])) cast
      = extractPropertyValuesE (some (.mk nm' (xs.map (fun e => ⟨tc', .num e⟩)) [])) cast := by
  cases xs with
  | nil => rfl
  | cons e l =>
    simp [extractPropertyValuesE, FBXNode.properties, List.filterMap_cons, toNumOpt,
      List.filterMap_map, Function.comp_def]

/-- C10 (implicit): an unterminated final polygon is dropped. For both the
binary writer's face loop and the ASCII writer's face loop, non-negative
indices after the last negative entry change nothing (the whole run,
faces and success flag alike, equals the run on the prefix), and a stream
with no negative entry yields no face line at all, whatever its length. -/
theorem trailingOpenPolygon_dropped :
    (∀ (hasN hasU : Bool) (uvIdx : List Int) (vOff nOff uOff : Nat) (s t : List Int),
        (∀ x ∈ t, ¬x < 0) →
        faceLoop hasN hasU uvIdx vOff nOff uOff (s ++ t) [] 0
            = faceLoop hasN hasU uvIdx vOff nOff uOff s [] 0
          ∧ (faceLoop hasN hasU uvIdx vOff nOff uOff t [] 0).1 = [])
      ∧ ∀ (hasN : Bool) (numN vOff nOff : Nat) (s t : List Int),
          (∀ x ∈ t, ¬x < 0) →
          asciiFaceLoop hasN numN vOff nOff (s ++ t) [] 0
              = asciiFaceLoop hasN numN vOff nOff s [] 0
            ∧ asciiFaceLoop hasN numN vOff nOff t [] 0 = [] := by
  constructor
  · intro hasN hasU uvIdx vOff nOff uOff s t ht
    refine ⟨faceLoop_append_nonneg hasN hasU uvIdx vOff nOff uOff s t ht [] 0, ?_⟩
    rw [faceLoop_all_nonneg hasN hasU uvIdx vOff nOff uOff t ht [] 0]
  · intro hasN numN vOff nOff s t ht
    exact ⟨asciiFaceLoop_append_nonneg hasN numN vOff nOff s t ht [] 0,
      asciiFaceLoop_all_nonneg hasN numN vOff nOff t ht [] 0⟩

/-- Witness for C10 at concrete inputs: trailing `[4, 5]` after the closed
polygon `0 1 ~(-3)` adds nothing, and the all-non-negative stream `[7]`
yields no face. -/
theorem trailingOpenPolygon_dropped_witness :
    (faceLoop false false [] 0 0 0 (([0, 1, -3] : List Int) ++ [4, 5]) [] 0
        = faceLoop false false [] 0 0 0 [0, 1, -3] [] 0
      ∧ (faceLoop false false [] 0 0 0 ([4, 5] : List Int) [] 0).1 = [])
    ∧ (asciiFaceLoop false 0 0 0 (([0, 1, -3] : List Int) ++ [7]) [] 0
        = asciiFaceLoop false 0 0 0 [0, 1, -3] [] 0
      ∧ asciiFaceLoop false 0 0 0 ([7] : List Int) [] 0 = []) :=
  ⟨trailingOpenPolygon_dropped.1 false false [] 0 0 0 [0, 1, -3] [4, 5] (by decide),
   trailingOpenPolygon_dropped.2 false 0 0 0 [0, 1, -3] [7] (by decide)⟩

/-- C1: the winding decode of the writer. Whenever the writer's face loop
consumes a whole index stream (its success flag is true), the number of
emitted face lines equals the number of negative entries of the stream, and
the face line closed by the k-th negative entry `v` ends in the vertex
index `~v + 1 + vertex_offset` — the bitwise complement of `v`, made
1-based and offset (e.g. stored `-5` recovers zero-based index `4`).
Non-negative entries only extend the open polygon (see the refinement in
the C2 theorem, whose face lists are exactly the spec's winding decode). -/
theorem windingDecode_faces (hasN hasU : Bool) (uvIdx : List Int) (vOff nOff uOff : Nat)
    (idxs : List Int)
    (h : (faceLoop hasN hasU uvIdx vOff nOff uOff idxs [] 0).2 = true) :
    (faceLoop hasN hasU uvIdx vOff nOff uOff idxs [] 0).1.length
        = (idxs.filter (fun v => v < 0)).length
      ∧ List.Forall₂
          (fun f v => (List.map FaceVert.v f).getLast? = some (pyNot v + 1 + (vOff : Int)))
          (faceLoop hasN hasU uvIdx vOff nOff uOff idxs [] 0).1
          (idxs.filter (fun v => v < 0)) :=
  have h2 := faceLoop_lastV hasN hasU uvIdx vOff nOff uOff idxs [] 0 h
  ⟨h2.length_eq, h2⟩

/-- Witness for C1 at the spec's own example: the stream `[0, 1, 2, -5]`
emits one face (one negative entry) whose final vertex index is
`~(-5) + 1 = 5`, i.e. recovered zero-based index 4. -/
theorem windingDecode_faces_witness :
    (faceLoop false false [] 0 0 0 ([0, 1, 2, -5] : List Int) [] 0).1.length
        = (([0, 1, 2, -5] : List Int).filter (fun v => v < 0)).length
      ∧ List.Forall₂
          (fun f v => (List.map FaceVert.v f).getLast? = some (pyNot v + 1 + ((0 : Nat) : Int)))
          (faceLoop false false [] 0 0 0 ([0, 1, 2, -5] : List Int) [] 0).1
          (([0, 1, 2, -5] : List Int).filter (fun v => v < 0)) :=
  windingDecode_faces false false [] 0 0 0 [0, 1, 2, -5] rfl

theorem faceLinesOf_cons_comment (ls : List ObjLine) :
    faceLinesOf (ObjLine.comment :: ls) = faceLinesOf ls := rfl

/-- C2: multi-geometry offsetting. When the writer serializes an ordered
sequence of records (and completes), its face lines decompose per record,
each record's face pass receiving offsets equal to the cumulative
position/normal/UV element counts of all previously written records
(`recordFaceLoop`); and the `v`-indices of the face lines are exactly the
spec-side winding decode of each record's index stream, 1-based and shifted
by the cumulative vertex count of the previous records — numbering
continues across records, it never restarts. -/
theorem multiGeometry_offsets (gs : List GeometryData)
    (h : (writeObj gs).2 = true) :
    faceLinesOf (writeObj gs).1
        = ((List.range gs.length).map (fun r => (recordFaceLoop gs 0 0 0 r).1)).flatten
      ∧ faceVLists (writeObj gs).1
        = ((List.range gs.length).map (fun r =>
            (specWindingPolys (gs.getD r GeometryData.empty).indices).map
              (fun poly => poly.map (fun vi => vi + 1 + (cumV gs r : Int))))).flatten := by
  have hgo : (writeObjGo (decide (1 < gs.length)) gs 0 0 0 0).2 = true := h
  have hfl : faceLinesOf (writeObj gs).1
      = ((List.range gs.length).map (fun r => (recordFaceLoop gs 0 0 0 r).1)).flatten := by
    rw [writeObj]
    simp only [faceLinesOf_cons_comment, faceLinesOf_cons_blank]
    exact writeObjGo_faces (decide (1 < gs.length)) gs 0 0 0 0 hgo
  refine ⟨hfl, ?_⟩
  rw [faceVLists, hfl, List.map_flatten]
  refine congrArg List.flatten ?_
  rw [List.map_map]
  refine List.map_congr_left ?_
  intro r _
  simp only [Function.comp_apply]
  have hok := writeObjGo_ok_record (decide (1 < gs.length)) gs 0 0 0 0 hgo r
  have hs := faceLoop_spec (!(gs.getD r GeometryData.empty).normals.isEmpty)
    (!(gs.getD r GeometryData.empty).uvs.isEmpty)
    (gs.getD r GeometryData.empty).uv_indices
    (0 + cumV gs r) (0 + cumN gs r) (0 + cumU gs r)
    (gs.getD r GeometryData.empty).indices [] 0 (by simpa [recordFaceLoop] using hok)
  simpa [recordFaceLoop, specWindingPolys] using hs

/-- Witness for C2 at the spec's own example: two geometries of 4 and 6
vertices, each one quad `0 1 2 ~(-4)`; the first face is `1 2 3 4`, the
second `5 6 7 8` — the second record's indices start at 5. -/
theorem multiGeometry_offsets_witness :
    faceVLists (writeObj [⟨List.replicate 12 (PyFloat.fin 0), [0, 1, 2, -4], [], [], []⟩,
        ⟨List.replicate 18 (PyFloat.fin 0), [0, 1, 2, -4], [], [], []⟩]).1
      = [[1, 2, 3, 4], [5, 6, 7, 8]] :=
  (multiGeometry_offsets
    [⟨List.replicate 12 (PyFloat.fin 0), [0, 1, 2, -4], [], [], []⟩,
     ⟨List.replicate 18 (PyFloat.fin 0), [0, 1, 2, -4], [], [], []⟩]
    (by decide)).2.trans (by decide)

/-- Counterexample to C8. The claim says both the binary and the ASCII path
emit a named-object marker only when more than one record is present, a
single-record document containing no marker. The ASCII writer refutes it:
this single-record ASCII document contains one `o Mesh_0` marker line. -/
theorem objectMarker_ascii_single_cex :
    (asciiWriteObj [⟨[.fin 0, .fin 0, .fin 0], [0, -2], []⟩]).countP isMarker = 1 := by
  decide

/-- C8 as amended: the BINARY writer emits one named-object marker per
record exactly when more than one record is present (none for a
single-record document), while the ASCII writer emits one marker per record
unconditionally, single-record documents included. -/
theorem objectMarker_policy :
    (∀ gs : List GeometryData, (writeObj gs).2 = true →
        (writeObj gs).1.countP isMarker = if 1 < gs.length then gs.length else 0)
      ∧ ∀ ags : List AsciiGeometry,
          (asciiWriteObj ags).countP isMarker = ags.length := by
  constructor
  · intro gs h
    have hgo : (writeObjGo (decide (1 < gs.length)) gs 0 0 0 0).2 = true := h
    have hm := countP_isMarker_writeObjGo (decide (1 < gs.length)) gs 0 0 0 0 hgo
    rw [writeObj]
    by_cases hlen : 1 < gs.length
    · simp [hlen] at hm
      simp [List.countP_cons, isMarker, hlen, hm]
    · simp [hlen] at hm
      simp only [List.countP_cons, isMarker, hlen]
      simpa using hm
  · intro ags
    rw [asciiWriteObj]
    simp [List.countP_cons, isMarker, countP_isMarker_asciiWriteGo ags 0 0 0]

/-- Witness for C8 at concrete inputs: a two-record binary document has two
markers, a one-record binary document has none, a one-record ASCII document
has one. -/
theorem objectMarker_policy_witness :
    ((writeObj [⟨[.fin 0, .fin 0, .fin 0], [0, -2], [], [], []⟩,
        ⟨[.fin 1, .fin 1, .fin 1], [0, -2], [], [], []⟩]).1.countP isMarker
        = if 1 < (2 : Nat) then 2 else 0)
      ∧ ((writeObj [⟨[.fin 0, .fin 0, .fin 0], [0, -2], [], [], []⟩]).1.countP isMarker
        = if 1 < (1 : Nat) then 1 else 0)
      ∧ (asciiWriteObj [⟨[.fin 0, .fin 0, .fin 0], [0, -2], []⟩]).countP isMarker = 1 := by
  refine ⟨?_, ?_, ?_⟩
  · have := objectMarker_policy.1
      [⟨[.fin 0, .fin 0, .fin 0], [0, -2], [], [], []⟩,
       ⟨[.fin 1, .fin 1, .fin 1], [0, -2], [], [], []⟩] (by decide)
    simpa using this
  · have := objectMarker_policy.1
      [⟨[.fin 0, .fin 0, .fin 0], [0, -2], [], [], []⟩] (by decide)
    simpa using this
  · exact objectMarker_policy.2 [⟨[.fin 0, .fin 0, .fin 0], [0, -2], []⟩]

/-- C7 (code bug): failure atomicity does not hold. On `crashGeo` — a
reachable geometry whose `uv_indices` list is shorter than its first
polygon — the writer has already opened the output file and written the
header, vertex, normal and UV lines when the face pass raises `IndexError`
(`uv_indices[-2]` on a one-element list): `convert` catches the exception
and returns `False`, but the partially written OBJ file is left in place
(the source has no cleanup path). The evaluation shows the failing run with
its non-empty partial output. -/
theorem writeObj_crash_partial_output :
    writeObj [crashGeo]
      = ([ObjLine.comment, ObjLine.comment, ObjLine.blank,
          ObjLine.vLine (.fin 0) (.fin 0) (.fin 0),
          ObjLine.vnLine (.fin 0) (.fin 0) (.fin 1),
          ObjLine.vtLine (.fin 0) (.fin 0),
          ObjLine.blank], false)
      ∧ (writeObj [crashGeo]).1 ≠ [] := by
  decide

/-- C9 (code bug): there is no array-bomb guard. A header declaring
`2 ^ 30` eight-byte elements against a four-byte remainder is processed
normally (no rejection path exists in `_read_array`; the element count is
silently clamped), and with encoding 1 a two-byte compressed payload that
inflates to 50 bytes yields 50 elements — the decoder accepts whatever the
declared count and the decompressor produce, never validating
`declared_count * element_size` against the remaining stream length. -/
theorem readArray_no_allocation_guard :
    readArray 8 decodeI64 (fun _ => none)
        ⟨leBytes 4 (2 ^ 30) ++ leBytes 4 0 ++ leBytes 4 0 ++ [1, 2, 3, 4], 0⟩
      = ([], ⟨leBytes 4 (2 ^ 30) ++ leBytes 4 0 ++ leBytes 4 0 ++ [1, 2, 3, 4], 16⟩)
    ∧ (readArray 1 decodeBool (fun _ => some (List.replicate 50 0))
        ⟨leBytes 4 50 ++ leBytes 4 1 ++ leBytes 4 2 ++ [7, 7], 0⟩).1
      = List.replicate 50 (NumElem.b false) := by
  decide

/-- Counterexample to C5. In `cexTree` two nodes have a geometry pairing
with non-empty vertex and index data (`cexOuter` and its child `cexInner`),
so the claim — each such node anywhere in the tree yields its own record —
demands two records; the code emits one, because the search does not
descend into a matched node's subtree. The second conjunct evaluates the
claim's own reading (every matching node emits). -/
theorem nestedGeometry_cex :
    (extractGeometries cexTree).map List.length = .ok 1
      ∧ ((mapME extractEmit (allMatchingNodes cexTree)).map List.flatten).map List.length
        = .ok 2 := by
  constructor
  · simp [extractGeometries, findGeometryPairs, findGeometryPairsList, cexTree, cexOuter,
      cexInner, cexVerts, cexIdx, extractGeoE, FBXNode.find, FBXNode.children, FBXNode.name,
      extractPropertyValuesE, mapME, castFloatE, castIntE, FBXNode.properties, ratTrunc]
    rfl
  · simp [allMatchingNodes, allMatchingNodesList, hasPairing, cexTree, cexOuter,
      cexInner, cexVerts, cexIdx, extractEmit, extractGeoE, FBXNode.find, FBXNode.children,
      FBXNode.name, extractPropertyValuesE, mapME, castFloatE, castIntE,
      FBXNode.properties, ratTrunc]
    rfl

theorem mapME_append {α β : Type _} (f : α → Except Unit β) :
    ∀ (a b : List α), mapME f (a ++ b)
      = match mapME f a with
        | .error e => .error e
        | .ok xs => (mapME f b).map (fun ys => xs ++ ys) := by
  intro a b
  induction a with
  | nil =>
    simp only [List.nil_append, mapME]
    cases h : mapME f b <;> rfl
  | cons x xs ih =>
    simp only [List.cons_append, mapME, List.append_eq]
    cases hfx : f x with
    | error e => rfl
    | ok v =>
      rw [ih]
      cases hxs : mapME f xs with
      | error e => rfl
      | ok vs =>
        cases hb : mapME f b with
        | error e => rfl
        | ok bs => simp [Except.map]

mutual

theorem findGeometryPairs_eq_top (n : FBXNode) :
    findGeometryPairs n = (mapME extractEmit (topMatchingNodes n)).map List.flatten := by
  rw [findGeometryPairs, topMatchingNodes]
  cases hv : n.find "Vertices" with
  | some vn =>
    cases hi : n.find "PolygonVertexIndex" with
    | some ixn =>
      simp only [extractEmit, hv, hi, mapME]
      cases extractGeoE n vn ixn with
      | error e => rfl
      | ok g => simp [Except.map]
    | none => exact findGeometryPairsList_eq_top n.children
  | none =>
    cases hi : n.find "PolygonVertexIndex" with
    | some ixn => exact findGeometryPairsList_eq_top n.children
    | none => exact findGeometryPairsList_eq_top n.children
termination_by sizeOf n
decreasing_by all_goals (cases n; simp [FBXNode.children])

theorem findGeometryPairsList_eq_top (l : List FBXNode) :
    findGeometryPairsList l = (mapME extractEmit (topMatchingNodesList l)).map List.flatten := by
  cases l with
  | nil => simp [findGeometryPairsList, topMatchingNodesList, mapME, Except.map]
  | cons c cs =>
    rw [findGeometryPairsList, topMatchingNodesList, mapME_append]
    rw [findGeometryPairs_eq_top c, findGeometryPairsList_eq_top cs]
    cases h1 : mapME extractEmit (topMatchingNodes c) with
    | error e => rfl
    | ok xs =>
      cases h2 : mapME extractEmit (topMatchingNodesList cs) with
      | error e => rfl
      | ok ys => simp [Except.map, List.flatten_append]
termination_by sizeOf l
decreasing_by all_goals first | (simp; omega) | simp

end

/-- C5 as amended: extraction yields one GeometryRecord per TOPMOST node
with a geometry pairing — a node with both direct children none of whose
proper ancestors also has both (the search walks every sibling branch but
does not descend beneath a matched node) — in depth-first order, each
emitted only when its extracted vertex data and index data are both
non-empty (`extractEmit`); nodes with a pairing nested inside a matched
node yield nothing. -/
theorem multiMesh_extraction_topmost (root : FBXNode) :
    extractGeometries root
      = (mapME extractEmit (topMatchingNodes root)).map List.flatten :=
  findGeometryPairs_eq_top root

/-- Counterexample to C6. The claim says an unknown property type tag
aborts decoding of the enclosing node's remaining properties. On this
stream, node "N" declares two properties: an unknown tag (88, 'X') and
then a well-formed 'I' int32 property. The parse decodes the 'I' property
AFTER the unknown tag — the loop skipped the unknown one and continued, it
did not abort — and also continues to the sibling node "M" (cursor ends at
34, both nodes parsed). Under the claim, "N" would have no decoded
properties. -/
theorem unknownTag_abort_cex :
    (parseTopLevel (fun _ => none) false 100 ⟨nodeStreamBytes 88, 0⟩).map
        (fun r => (r.1.map (fun nd => (nd.name, nd.properties)), r.2.pos))
      = .ok ([("N", [⟨'I', PValue.num (.i 5)⟩]), ("M", [])], 34) := by
  rfl

/-- C6 as amended: an unknown property type tag makes `_read_property`
return nothing after consuming only the tag byte, and the enclosing node's
property loop does NOT abort — it skips the unknown property and keeps
decoding the remaining ones from the next byte (here recovering the 'I'
property that follows any unknown tag `u`); parsing of the rest of the file
continues regardless, the parser seeking each node to its recorded end
offset (both sibling nodes of `nodeStreamBytes` are parsed). -/
theorem unknownTag_skips_and_continues :
    (∀ (u : Nat) (inflate : List Nat → Option (List Nat)),
        u ∉ [89, 67, 73, 70, 68, 76, 102, 100, 105, 108, 98, 83, 82] →
        readProps inflate 2 ⟨[u, 73, 5, 0, 0, 0], 0⟩
          = .ok ([⟨'I', PValue.num (.i 5)⟩], ⟨[u, 73, 5, 0, 0, 0], 6⟩))
      ∧ (parseTopLevel (fun _ => none) false 100 ⟨nodeStreamBytes 88, 0⟩).map
          (fun r => (r.1.map (fun nd => nd.properties.length), r.2.pos))
        = .ok ([1, 0], 34) := by
  constructor
  · intro u inflate hu
    simp only [List.mem_cons, List.not_mem_nil, or_false, not_or] at hu
    obtain ⟨h1, h2, h3, h4, h5, h6, h7, h8, h9, h10, h11, h12, h13⟩ := hu
    have hrp : readProperty inflate ⟨[u, 73, 5, 0, 0, 0], 0⟩
        = (.skip, ⟨[u, 73, 5, 0, 0, 0], 1⟩) := by
      rw [readProperty]
      simp [bread, h1, h2, h3, h4, h5, h6, h7, h8, h9, h10, h11, h12, h13]
    rw [readProps, hrp]
    rfl
  · rfl

/-- Witness for C6 at the concrete unknown tag 88 ('X'): the loop recovers
the 'I' property that follows it. -/
theorem unknownTag_skips_and_continues_witness :
    readProps (fun _ => none) 2 ⟨[88, 73, 5, 0, 0, 0], 0⟩
      = .ok ([⟨'I', PValue.num (.i 5)⟩], ⟨[88, 73, 5, 0, 0, 0], 6⟩) :=
  unknownTag_skips_and_continues.1 88 (fun _ => none) (by decide)

theorem leNat_cons (b : Nat) (bs : List Nat) : leNat (b :: bs) = b + 256 * leNat bs := rfl

theorem leBytes_length (k n : Nat) : (leBytes k n).length = k := by
  induction k generalizing n with
  | zero => rfl
  | succ k ih => simp [leBytes, ih]

theorem leNat_leBytes (k n : Nat) : leNat (leBytes k n) = n % 2 ^ (8 * k) := by
  induction k generalizing n with
  | zero => simp [leBytes, leNat, Nat.mod_one]
  | succ k ih =>
    rw [leBytes, leNat_cons, ih]
    rw [show 8 * (k + 1) = 8 * k + 8 by ring, pow_add,
      show (2 : Nat) ^ (8 * k) * 2 ^ 8 = 256 * 2 ^ (8 * k) by ring, Nat.mod_mul]

theorem header12_fields (al enc cl : Nat) (tail : List Nat)
    (hal : al < 2 ^ 32) (henc : enc < 2 ^ 32) (hcl : cl < 2 ^ 32) :
    bread ⟨leBytes 4 al ++ leBytes 4 enc ++ leBytes 4 cl ++ tail, 0⟩ 12
        = (leBytes 4 al ++ leBytes 4 enc ++ leBytes 4 cl,
           ⟨leBytes 4 al ++ leBytes 4 enc ++ leBytes 4 cl ++ tail, 12⟩)
      ∧ leNat ((leBytes 4 al ++ leBytes 4 enc ++ leBytes 4 cl).take 4) = al
      ∧ leNat (((leBytes 4 al ++ leBytes 4 enc ++ leBytes 4 cl).drop 4).take 4) = enc
      ∧ leNat ((leBytes 4 al ++ leBytes 4 enc ++ leBytes 4 cl).drop 8) = cl := by
  have l1 : (leBytes 4 al).length = 4 := leBytes_length 4 al
  have l2 : (leBytes 4 enc).length = 4 := leBytes_length 4 enc
  have l3 : (leBytes 4 cl).length = 4 := leBytes_length 4 cl
  have l12 : (leBytes 4 al ++ leBytes 4 enc).length = 8 := by simp [l1, l2]
  have lh : (leBytes 4 al ++ leBytes 4 enc ++ leBytes 4 cl).length = 12 := by
    simp [l1, l2, l3]
  refine ⟨?_, ?_, ?_, ?_⟩
  · rw [bread]
    simp only [List.drop_zero]
    rw [List.take_left' lh]
    have hlen : (leBytes 4 al ++ leBytes 4 enc ++ leBytes 4 cl ++ tail).length
        = 12 + tail.length := by simp [leBytes_length]; omega
    have hmin : min (0 + 12) (leBytes 4 al ++ leBytes 4 enc ++ leBytes 4 cl ++ tail).length
        = 12 := by rw [hlen]; omega
    rw [hmin]
  · rw [List.take_append_of_le_length (by rw [l12]; omega), List.take_left' l1,
      leNat_leBytes]
    omega
  · rw [List.drop_append_of_le_length (by rw [l12]; omega), List.drop_left' l1,
      List.take_left' l2, leNat_leBytes]
    omega
  · rw [List.drop_append_of_le_length (by rw [l12])]
    have hd : (leBytes 4 al ++ leBytes 4 enc).drop 8 = [] := by
      simp [List.drop_eq_nil_iff, l12]
    rw [hd, List.nil_append, leNat_leBytes]
    omega

theorem readArray_raw_fst (esize : Nat) (dec : List Nat → NumElem)
    (inflate : List Nat → Option (List Nat)) (al cl0 : Nat) (payload rest : List Nat)
    (hal : al < 2 ^ 32) (hcl0 : cl0 < 2 ^ 32) (hp : payload.length = al * esize) :
    (readArray esize dec inflate
        ⟨leBytes 4 al ++ leBytes 4 0 ++ leBytes 4 cl0 ++ (payload ++ rest), 0⟩).1
      = unpackElems esize dec al payload := by
  obtain ⟨hb, hf1, hf2, hf3⟩ :=
    header12_fields al 0 cl0 (payload ++ rest) hal (by norm_num) hcl0
  have lh : (leBytes 4 al ++ leBytes 4 0 ++ leBytes 4 cl0).length = 12 := by
    simp [leBytes_length]
  rw [readArray]
  simp only [hb, lh, hf1, hf2, hf3]
  rw [if_neg (by omega), if_pos trivial, bread]
  simp only [List.drop_left' lh]
  rw [← hp, List.take_left]

theorem readArray_inflated_fst (esize : Nat) (dec : List Nat → NumElem)
    (inflate : List Nat → Option (List Nat)) (al : Nat) (comp b rest : List Nat)
    (hal : al < 2 ^ 32) (hcl : comp.length < 2 ^ 32) (hb : inflate comp = some b) :
    (readArray esize dec inflate
        ⟨leBytes 4 al ++ leBytes 4 1 ++ leBytes 4 comp.length ++ (comp ++ rest), 0⟩).1
      = unpackElems esize dec al b := by
  obtain ⟨hbr, hf1, hf2, hf3⟩ :=
    header12_fields al 1 comp.length (comp ++ rest) hal (by norm_num) hcl
  have lh : (leBytes 4 al ++ leBytes 4 1 ++ leBytes 4 comp.length).length = 12 := by
    simp [leBytes_length]
  rw [readArray]
  simp only [hbr, lh, hf1, hf2, hf3]
  rw [if_neg (by omega), if_neg (by omega), if_pos trivial, bread]
  simp only [List.drop_left' lh, List.take_left]
  rw [hb]

theorem unpackElems_length (esize : Nat) (dec : List Nat → NumElem) (al : Nat)
    (raw : List Nat) :
    (unpackElems esize dec al raw).length = min al (raw.length / esize) := by
  simp [unpackElems, Nat.min_comm]

/-- C4: array decoding is encoding-invariant. For every element size,
element decoder and inflate behaviour: a raw-encoded (encoding 0) array
property whose payload holds the declared `al * esize` bytes and a
compressed (encoding 1) array property whose payload inflates to those
same bytes decode to identical flat sequences; and after decompression the
usable element count is `min(declared count, decoded byte length /
element size)` — a declared count larger than what decompressed does not
overrun the buffer. -/
theorem arrayDecode_encoding_invariant :
    (∀ (esize : Nat) (dec : List Nat → NumElem) (inflate : List Nat → Option (List Nat))
        (al cl0 : Nat) (payload comp rest rest' : List Nat),
        al < 2 ^ 32 → cl0 < 2 ^ 32 → comp.length < 2 ^ 32 →
        payload.length = al * esize → inflate comp = some payload →
        (readArray esize dec inflate
            ⟨leBytes 4 al ++ leBytes 4 0 ++ leBytes 4 cl0 ++ (payload ++ rest), 0⟩).1
          = (readArray esize dec inflate
              ⟨leBytes 4 al ++ leBytes 4 1 ++ leBytes 4 comp.length ++ (comp ++ rest'), 0⟩).1)
      ∧ ∀ (esize : Nat) (dec : List Nat → NumElem) (inflate : List Nat → Option (List Nat))
          (al : Nat) (comp b rest : List Nat),
          al < 2 ^ 32 → comp.length < 2 ^ 32 → inflate comp = some b →
          ((readArray esize dec inflate
              ⟨leBytes 4 al ++ leBytes 4 1 ++ leBytes 4 comp.length ++ (comp ++ rest), 0⟩).1).length
            = min al (b.length / esize) := by
  constructor
  · intro esize dec inflate al cl0 payload comp rest rest' hal hcl0 hcl hp hic
    rw [readArray_raw_fst esize dec inflate al cl0 payload rest hal hcl0 hp,
      readArray_inflated_fst esize dec inflate al comp payload rest' hal hcl hic]
  · intro esize dec inflate al comp b rest hal hcl hib
    rw [readArray_inflated_fst esize dec inflate al comp b rest hal hcl hib,
      unpackElems_length]

/-- Witness for C4 at a concrete array: two int32 elements `[1, 2]` stored
raw and stored as a two-byte compressed payload that inflates to the same
eight bytes decode identically, and the decoded count is
`min 2 (8 / 4) = 2`. -/
theorem arrayDecode_encoding_invariant_witness :
    ((readArray 4 decodeI32
        (fun c => if c = [9, 9] then some [1, 0, 0, 0, 2, 0, 0, 0] else none)
        ⟨leBytes 4 2 ++ leBytes 4 0 ++ leBytes 4 7 ++ ([1, 0, 0, 0, 2, 0, 0, 0] ++ [5]), 0⟩).1
      = (readArray 4 decodeI32
          (fun c => if c = [9, 9] then some [1, 0, 0, 0, 2, 0, 0, 0] else none)
          ⟨leBytes 4 2 ++ leBytes 4 1 ++ leBytes 4 ([9, 9] : List Nat).length
            ++ ([9, 9] ++ [6]), 0⟩).1)
    ∧ ((readArray 4 decodeI32
          (fun c => if c = [9, 9] then some [1, 0, 0, 0, 2, 0, 0, 0] else none)
          ⟨leBytes 4 2 ++ leBytes 4 1 ++ leBytes 4 ([9, 9] : List Nat).length
            ++ ([9, 9] ++ [6]), 0⟩).1).length
      = min 2 (([1, 0, 0, 0, 2, 0, 0, 0] : List Nat).length / 4) :=
  ⟨arrayDecode_encoding_invariant.1 4 decodeI32
      (fun c => if c = [9, 9] then some [1, 0, 0, 0, 2, 0, 0, 0] else none)
      2 7 [1, 0, 0, 0, 2, 0, 0, 0] [9, 9] [5] [6]
      (by norm_num) (by norm_num) (by norm_num) (by norm_num) (by decide),
   arrayDecode_encoding_invariant.2 4 decodeI32
      (fun c => if c = [9, 9] then some [1, 0, 0, 0, 2, 0, 0, 0] else none)
      2 [9, 9] [1, 0, 0, 0, 2, 0, 0, 0] [6]
      (by norm_num) (by norm_num) (by decide)⟩
